import Mathlib

/-!
Shallow embedding of the `sdl_wrapper` crate (`src/lib.rs`), a thin
framebuffer wrapper over SDL2.

Modelling conventions:
* `f32` channel parameters are modelled as exact rationals (`ℚ`); the
  claims and the spec speak of real numbers in `[0,1]`.
* Rust `f32::round` rounds half away from zero; `as u8` on a float
  saturates to `[0,255]` (defined Rust semantics since 1.45).
* `u32` arithmetic (`y * width + x`, `width * height`) wraps modulo
  `2^32` (release-mode semantics); theorems carry explicit
  no-overflow hypotheses where the claims presuppose exact indices.
* Out-of-bounds `Vec` indexing panics in Rust; `plot_pixel` therefore
  returns `Option` (`none` = panic).
* SDL calls are external; their success or failure is supplied by an
  oracle record, and the GPU-facing calls made by `present` are
  recorded as an effect trace so the two present variants can be
  compared step by step.
-/

namespace SdlWrapper

/-- The modulus of Rust `u32` arithmetic, 2^32. -/
def U32 : Nat := 4294967296

/-- Mirror of `Pixel` from `lib.rs`: three `u8` channels r, g, b. -/
structure Pixel where
  r : Nat
  g : Nat
  b : Nat
deriving Repr, DecidableEq

/-- Rounding half away from zero, the semantics of Rust `f32::round`. -/
def roundHalfAway (q : ℚ) : ℤ :=
  if 0 ≤ q then ⌊q + 1/2⌋ else -⌊-q + 1/2⌋

/-- Rust `as u8` applied to a (rounded, integral) float: saturating cast
to `[0,255]`. -/
def satU8 (z : ℤ) : Nat := (min 255 (max 0 z)).toNat

/-- The channel scaling `(v * 255.0).round() as u8` used by `set_color`,
`clear` and `clear_with_rgb`. -/
def scale255 (v : ℚ) : Nat := satU8 (roundHalfAway (v * 255))

/-- Modelled from the spec: `src/constants.rs` is not present in the
repository snapshot; the spec fixes the upload stride at width × 3
bytes (3 bytes per RGB pixel), so `COLOR_DEPTH = 3`. -/
def COLOR_DEPTH : Nat := 3

/-- Input events drained from the SDL event pump (abstracted: the
wrapper assigns no meaning to them). -/
inductive SdlEvent where
  | Quit
  | KeyDown (keycode : Option Nat)
  | Other
deriving Repr, DecidableEq

/-- The CPU-side state of `ScreenContextManager` from `lib.rs`: the
framebuffer, current draw color, dimensions, cached `width * COLOR_DEPTH`,
and the pending event queue of the event pump.  The `canvas` and
`texture_creator` handles are external SDL resources and appear only
through the present/new oracles. -/
structure ScreenContextManager where
  framebuffer : List Pixel
  color : Pixel
  height : Nat
  width : Nat
  width_times_color : Nat
  eventQueue : List SdlEvent
deriving Repr, DecidableEq

/-- Mirror of `InitError` from `lib.rs`.  `Sdl2InitError` carries the SDL message
string (used for `sdl2::init`, `sdl.video()` and `event_pump()`
failures); the window and canvas build variants carry the underlying
library error rendered as text. -/
inductive InitError where
  | Sdl2InitError (msg : String)
  | WindowBuildError (msg : String)
  | CanvasBuildError (msg : String)
deriving Repr, DecidableEq

/-- Mirror of `PresentationError` from `lib.rs`. -/
inductive PresentationError where
  | CanvasCopy (msg : String)
  | TextureUpdate (msg : String)
  | TextureValue (msg : String)
  | SaveCanvasBMP (msg : String)
deriving Repr, DecidableEq

/-- Mirror of `SaveImageError` from `lib.rs`. -/
inductive SaveImageError where
  | SaveBMP (msg : String)
deriving Repr, DecidableEq

/-- Oracle for the fallible SDL sub-steps of `ScreenContextManager::new`,
in source order; `some msg` means that sub-step fails with the given
library message, and `initialEvents` is what the freshly acquired event
pump holds. -/
structure InitOracle where
  initErr : Option String
  videoErr : Option String
  windowErr : Option String
  canvasErr : Option String
  pumpErr : Option String
  initialEvents : List SdlEvent
deriving Repr, DecidableEq

/-- Model of `ScreenContextManager::new`: runs the SDL sub-steps in source order
(`sdl2::init`, `sdl.video()`, window build, canvas build,
`event_pump()`), translating each failure into its `InitError` variant
via the `?`/`From` conversions of `lib.rs`; on success it allocates the
zeroed framebuffer of `width * height` pixels (u32 product) and black
draw color. -/
def new (o : InitOracle) (_title : String) (width height : Nat) :
    Except InitError ScreenContextManager :=
  match o.initErr with
  | some m => .error (.Sdl2InitError m)
  | none =>
    match o.videoErr with
    | some m => .error (.Sdl2InitError m)
    | none =>
      match o.windowErr with
      | some m => .error (.WindowBuildError m)
      | none =>
        match o.canvasErr with
        | some m => .error (.CanvasBuildError m)
        | none =>
          match o.pumpErr with
          | some m => .error (.Sdl2InitError m)
          | none => .ok
            { framebuffer := List.replicate (width * height % U32) ⟨0, 0, 0⟩
              color := ⟨0, 0, 0⟩
              height := height
              width := width
              width_times_color := width * COLOR_DEPTH % U32
              eventQueue := o.initialEvents }

/-- Model of `get_width`. -/
def get_width (s : ScreenContextManager) : Nat := s.width

/-- Model of `get_height`. -/
def get_height (s : ScreenContextManager) : Nat := s.height

/-- Model of `set_color`: stores `((v * 255.0).round() as u8)` per channel into
the draw color. -/
def set_color (r g b : ℚ) (s : ScreenContextManager) : ScreenContextManager :=
  { s with color := ⟨scale255 r, scale255 g, scale255 b⟩ }

/-- Model of `plot_pixel`: computes `i = y * width + x` in wrapping `u32`
arithmetic and writes the draw color at `framebuffer[i]`; the
out-of-bounds indexing panic is `none`. -/
def plot_pixel (x y : Nat) (s : ScreenContextManager) :
    Option ScreenContextManager :=
  let i := (y * s.width % U32 + x) % U32
  if i < s.framebuffer.length then
    some { s with framebuffer := s.framebuffer.set i s.color }
  else
    none

/-- Model of `clear`: fills the whole framebuffer with the grey pixel obtained by
scaling `shadow` on all three channels (`Vec::fill`). -/
def clear (shadow : ℚ) (s : ScreenContextManager) : ScreenContextManager :=
  let p : Pixel := ⟨scale255 shadow, scale255 shadow, scale255 shadow⟩
  { s with framebuffer := List.replicate s.framebuffer.length p }

/-- Model of `clear_with_rgb`: fills the whole framebuffer with the scaled color
(`Vec::fill`). -/
def clear_with_rgb (r g b : ℚ) (s : ScreenContextManager) :
    ScreenContextManager :=
  let p : Pixel := ⟨scale255 r, scale255 g, scale255 b⟩
  { s with framebuffer := List.replicate s.framebuffer.length p }

/-- The byte image of the framebuffer under `bytemuck::cast_slice`:
row-major, 3 bytes per pixel in r, g, b order. -/
def fbBytes (fb : List Pixel) : List Nat :=
  fb.flatMap (fun p => [p.r, p.g, p.b])

/-- The GPU-facing calls a present variant makes, with the arguments it
passes, in order. -/
inductive RenderEffect where
  | createTexture (w h : Nat)
  | updateTexture (bytes : List Nat) (pitch : Nat)
  | canvasCopy
  | canvasPresent
deriving Repr, DecidableEq

/-- Oracle for the fallible SDL sub-steps of a present call, in source
order: streaming-texture creation, texture update, canvas copy. -/
structure PresentOracle where
  createErr : Option String
  updateErr : Option String
  copyErr : Option String
deriving Repr, DecidableEq

/-- Model of `ScreenContextManager::present_async` (the body of the `async fn`):
creates an RGB24 streaming texture of `width × height`, uploads the
framebuffer bytes with pitch `width_times_color`, copies the texture to
the canvas and presents it.  Returns the result, the state after the
call, and the trace of GPU-facing calls made. -/
def present_async (o : PresentOracle) (s : ScreenContextManager) :
    Except PresentationError Unit × ScreenContextManager × List RenderEffect :=
  match o.createErr with
  | some m => (.error (.TextureValue m), s, [.createTexture s.width s.height])
  | none =>
    match o.updateErr with
    | some m =>
      (.error (.TextureUpdate m), s,
        [.createTexture s.width s.height,
         .updateTexture (fbBytes s.framebuffer) s.width_times_color])
    | none =>
      match o.copyErr with
      | some m =>
        (.error (.CanvasCopy m), s,
          [.createTexture s.width s.height,
           .updateTexture (fbBytes s.framebuffer) s.width_times_color,
           .canvasCopy])
      | none =>
        (.ok (), s,
          [.createTexture s.width s.height,
           .updateTexture (fbBytes s.framebuffer) s.width_times_color,
           .canvasCopy, .canvasPresent])

/-- Model of `ScreenContextManager::present`: the blocking variant; its body in
`lib.rs` is textually identical to `present_async`. -/
def present (o : PresentOracle) (s : ScreenContextManager) :
    Except PresentationError Unit × ScreenContextManager × List RenderEffect :=
  match o.createErr with
  | some m => (.error (.TextureValue m), s, [.createTexture s.width s.height])
  | none =>
    match o.updateErr with
    | some m =>
      (.error (.TextureUpdate m), s,
        [.createTexture s.width s.height,
         .updateTexture (fbBytes s.framebuffer) s.width_times_color])
    | none =>
      match o.copyErr with
      | some m =>
        (.error (.CanvasCopy m), s,
          [.createTexture s.width s.height,
           .updateTexture (fbBytes s.framebuffer) s.width_times_color,
           .canvasCopy])
      | none =>
        (.ok (), s,
          [.createTexture s.width s.height,
           .updateTexture (fbBytes s.framebuffer) s.width_times_color,
           .canvasCopy, .canvasPresent])

/-- Model of `get_events`: drains the event pump, returning all pending events
and leaving the queue empty. -/
def get_events (s : ScreenContextManager) :
    List SdlEvent × ScreenContextManager :=
  (s.eventQueue, { s with eventQueue := [] })

/-- Model of `save_img`: hands the framebuffer bytes, width, height and the RGB8
color type to the image codec (`image::save_buffer`); the codec's
failure, if any, is supplied by the oracle.  The method takes `&self`,
so the state component of the result is the unchanged receiver. -/
def save_img (encodeErr : Option String) (s : ScreenContextManager) :
    Except SaveImageError (List Nat × Nat × Nat) × ScreenContextManager :=
  match encodeErr with
  | some m => (.error (.SaveBMP m), s)
  | none => (.ok (fbBytes s.framebuffer, s.width, s.height), s)

/-- The spec's read-back observation: the framebuffer entry at
`index(x,y) = y·width + x`. -/
def getPixel (s : ScreenContextManager) (x y : Nat) : Option Pixel :=
  s.framebuffer[y * s.width + x]?

/-- The manager produced by a fully successful `new` with an empty
event queue: zeroed `width * height` framebuffer, black draw color. -/
def freshSCM (w h : Nat) : ScreenContextManager :=
  { framebuffer := List.replicate (w * h % U32) ⟨0, 0, 0⟩
    color := ⟨0, 0, 0⟩
    height := h
    width := w
    width_times_color := w * COLOR_DEPTH % U32
    eventQueue := [] }

/-- All pixel coordinates of a `w × h` surface, row-major. -/
def allCoords (w h : Nat) : List (Nat × Nat) :=
  (List.range h).flatMap (fun y => (List.range w).map (fun x => (x, y)))

/-- The spec's alternative reading of `clear`: set the draw color to
the grey and plot every pixel of the surface with `plot_pixel`. -/
def plotAllGrey (shadow : ℚ) (s : ScreenContextManager) :
    Option ScreenContextManager :=
  (allCoords s.width s.height).foldl
    (fun acc c => acc.bind (fun t => plot_pixel c.1 c.2 t))
    (some (set_color shadow shadow shadow s))

end SdlWrapper

namespace SdlWrapper

/-! ### Helper lemmas -/

theorem roundHalfAway_nonneg {q : ℚ} (h : 0 ≤ q) : 0 ≤ roundHalfAway q := by
  unfold roundHalfAway
  rw [if_pos h]
  exact Int.floor_nonneg.mpr (by linarith)

theorem roundHalfAway_le_255 {q : ℚ} (h0 : 0 ≤ q) (h : q ≤ 255) :
    roundHalfAway q ≤ 255 := by
  unfold roundHalfAway
  rw [if_pos h0]
  have h1 : (q + 1/2 : ℚ) < ((256 : ℤ) : ℚ) := by push_cast; linarith
  have h2 : ⌊q + 1/2⌋ < 256 := Int.floor_lt.mpr h1
  omega

/-- On `[0,1]` inputs the saturating cast is the identity: the stored
channel is exactly the rounded value. -/
theorem scale255_eq_round {v : ℚ} (h0 : 0 ≤ v) (h1 : v ≤ 1) :
    scale255 v = (roundHalfAway (v * 255)).toNat := by
  have hnn : (0:ℚ) ≤ v * 255 := by positivity
  have hle : (v * 255 : ℚ) ≤ 255 := by nlinarith
  have hr0 : 0 ≤ roundHalfAway (v * 255) := roundHalfAway_nonneg hnn
  have hr1 : roundHalfAway (v * 255) ≤ 255 := roundHalfAway_le_255 hnn hle
  unfold scale255 satU8
  omega

theorem scale255_zero : scale255 0 = 0 := by
  norm_num [scale255, satU8, roundHalfAway]

theorem scale255_one : scale255 1 = 255 := by
  norm_num [scale255, satU8, roundHalfAway]
  rfl

/-- Row-major flat index of an in-range coordinate is in range. -/
theorem index_lt {w h x y : Nat} (hx : x < w) (hy : y < h) :
    y * w + x < w * h := by
  calc y * w + x < y * w + w := by omega
    _ = (y + 1) * w := by ring
    _ ≤ h * w := Nat.mul_le_mul_right w hy
    _ = w * h := Nat.mul_comm h w

/-- Without `u32` overflow the wrapped index computed by `plot_pixel`
is the plain flat index. -/
theorem u32index_eq {w x y : Nat} (h : y * w + x < U32) :
    (y * w % U32 + x) % U32 = y * w + x := by
  have h1 : y * w < U32 := by omega
  rw [Nat.mod_eq_of_lt h1, Nat.mod_eq_of_lt h]

theorem plot_pixel_eq_some {s : ScreenContextManager} {x y : Nat}
    (hu : y * s.width + x < U32) (hlt : y * s.width + x < s.framebuffer.length) :
    plot_pixel x y s =
      some { s with framebuffer := s.framebuffer.set (y * s.width + x) s.color } := by
  unfold plot_pixel
  rw [u32index_eq hu]
  simp [hlt]

theorem plot_pixel_eq_none {s : ScreenContextManager} {x y : Nat}
    (hu : y * s.width + x < U32) (hge : s.framebuffer.length ≤ y * s.width + x) :
    plot_pixel x y s = none := by
  unfold plot_pixel
  rw [u32index_eq hu]
  simp
  omega

/-! ### Claims -/

/-- C1: for every r, g, b in [0,1] and every valid (x,y), `set_color(r,g,b)`
followed by `plot_pixel(x,y)` makes the framebuffer pixel at (x,y) read
back exactly (round(r·255), round(g·255), round(b·255)). -/
theorem claim_C1_set_color_plot_readback
    (s : ScreenContextManager) (r g b : ℚ) (x y : Nat)
    (hr0 : 0 ≤ r) (hr1 : r ≤ 1) (hg0 : 0 ≤ g) (hg1 : g ≤ 1)
    (hb0 : 0 ≤ b) (hb1 : b ≤ 1)
    (hx : x < s.width) (hy : y < s.height)
    (hlen : s.framebuffer.length = s.width * s.height)
    (hfit : s.width * s.height ≤ U32) :
    ∃ s', plot_pixel x y (set_color r g b s) = some s' ∧
      getPixel s' x y =
        some ⟨(roundHalfAway (r * 255)).toNat,
              (roundHalfAway (g * 255)).toNat,
              (roundHalfAway (b * 255)).toNat⟩ := by
  have hi : y * s.width + x < s.width * s.height := index_lt hx hy
  have hu : y * s.width + x < U32 := lt_of_lt_of_le hi hfit
  have hw : (set_color r g b s).width = s.width := rfl
  have hfb : (set_color r g b s).framebuffer = s.framebuffer := rfl
  have hlt : y * (set_color r g b s).width + x <
      (set_color r g b s).framebuffer.length := by
    rw [hw, hfb, hlen]; exact hi
  refine ⟨_, plot_pixel_eq_some (by rw [hw]; exact hu) hlt, ?_⟩
  unfold getPixel
  simp only [hw, hfb]
  rw [List.getElem?_set_eq_of_lt _ (by rw [hlen]; exact hi)]
  have hc : (set_color r g b s).color =
      ⟨scale255 r, scale255 g, scale255 b⟩ := rfl
  rw [hc, scale255_eq_round hr0 hr1, scale255_eq_round hg0 hg1,
    scale255_eq_round hb0 hb1]


/-- C2: `plot_pixel(x,y)` at a valid coordinate (including the far
corner) modifies only the framebuffer entry at `y*width + x` and leaves
every other pixel unchanged; and the 4×4 end-to-end scenario (plot red
at (0,0), then green at (3,3), no clear) leaves pixel(0,0)=(255,0,0),
pixel(3,3)=(0,255,0) and the other 14 pixels (0,0,0). -/
theorem claim_C2_plot_pixel_single_pixel_effect
    (s : ScreenContextManager) (x y : Nat)
    (hx : x < s.width) (hy : y < s.height)
    (hlen : s.framebuffer.length = s.width * s.height)
    (hfit : s.width * s.height ≤ U32) :
    (∃ s', plot_pixel x y s = some s' ∧
       s'.framebuffer[y * s.width + x]? = some s.color ∧
       (∀ j, j ≠ y * s.width + x → s'.framebuffer[j]? = s.framebuffer[j]?)) ∧
    (∃ sfin,
       (plot_pixel 0 0 (set_color 1 0 0 (freshSCM 4 4))).bind
         (fun s1 => plot_pixel 3 3 (set_color 0 1 0 s1)) = some sfin ∧
       getPixel sfin 0 0 = some ⟨255, 0, 0⟩ ∧
       getPixel sfin 3 3 = some ⟨0, 255, 0⟩ ∧
       (∀ x', x' < 4 → ∀ y', y' < 4 → ¬(x' = 0 ∧ y' = 0) → ¬(x' = 3 ∧ y' = 3) →
         getPixel sfin x' y' = some ⟨0, 0, 0⟩)) := by
  constructor
  · have hi : y * s.width + x < s.width * s.height := index_lt hx hy
    have hu : y * s.width + x < U32 := lt_of_lt_of_le hi hfit
    refine ⟨_, plot_pixel_eq_some hu (by rw [hlen]; exact hi), ?_, ?_⟩
    · exact List.getElem?_set_eq_of_lt _ (by rw [hlen]; exact hi)
    · intro j hj
      exact List.getElem?_set_ne (Ne.symm hj)
  · simp only [set_color, scale255_one, scale255_zero]
    exact ⟨_, rfl, by decide, by decide, by decide⟩

/-- Witness for C2 at a concrete 4×4 manager and the far corner (3,3). -/
theorem claim_C2_witness :
    (3 : Nat) < (freshSCM 4 4).width ∧ (3 : Nat) < (freshSCM 4 4).height ∧
    (∃ s', plot_pixel 3 3 (freshSCM 4 4) = some s' ∧
       s'.framebuffer[3 * (freshSCM 4 4).width + 3]? = some (freshSCM 4 4).color ∧
       (∀ j, j ≠ 3 * (freshSCM 4 4).width + 3 →
         s'.framebuffer[j]? = (freshSCM 4 4).framebuffer[j]?)) := by
  refine ⟨by decide, by decide, ?_⟩
  exact (claim_C2_plot_pixel_single_pixel_effect (freshSCM 4 4) 3 3
    (by decide) (by decide) (by decide) (by decide)).1


/-- Membership in the coordinate enumeration. -/
theorem mem_allCoords {w h : Nat} {c : Nat × Nat} :
    c ∈ allCoords w h ↔ c.1 < w ∧ c.2 < h := by
  cases c with
  | mk a b =>
    simp only [allCoords, List.mem_flatMap, List.mem_map, List.mem_range]
    constructor
    · rintro ⟨y, hy, x, hx, hxy⟩
      obtain ⟨rfl, rfl⟩ := Prod.mk.injEq .. ▸ And.intro (congrArg Prod.fst hxy) (congrArg Prod.snd hxy)
      exact ⟨hx, hy⟩
    · rintro ⟨ha, hb⟩
      exact ⟨b, hb, a, ha, rfl⟩

/-- The flat indices of `allCoords`, in order, are exactly `0, …, h·w - 1`. -/
theorem allCoords_indices (w h : Nat) :
    (allCoords w h).map (fun c => c.2 * w + c.1) = List.range (h * w) := by
  induction h with
  | zero => simp [allCoords]
  | succ k ih =>
    simp only [allCoords] at ih ⊢
    rw [List.range_succ, List.flatMap_append, List.map_append, ih]
    have h2 : (([k].flatMap fun y => (List.range w).map fun x => (x, y)).map
        fun c => c.2 * w + c.1) = (List.range w).map (fun x => k * w + x) := by
      simp only [List.flatMap_cons, List.flatMap_nil, List.append_nil, List.map_map]
      rfl
    rw [h2, Nat.succ_mul, List.range_add]

/-- Folding `set i p` over the first `n` indices overwrites the prefix. -/
theorem foldl_set_range {α : Type} (p : α) :
    ∀ (n : Nat) (l : List α), n ≤ l.length →
      (List.range n).foldl (fun fb i => fb.set i p) l =
        List.replicate n p ++ l.drop n := by
  intro n
  induction n with
  | zero => intro l _; simp
  | succ k ih =>
    intro l hle
    have hk : k < l.length := by omega
    rw [List.range_succ, List.foldl_append, ih l (by omega)]
    simp only [List.foldl_cons, List.foldl_nil]
    rw [List.set_append, List.length_replicate]
    simp only [lt_irrefl, if_false, Nat.sub_self]
    rw [List.drop_eq_getElem_cons hk]
    simp only [List.set_cons_zero]
    rw [List.replicate_succ' k p, List.append_assoc, List.singleton_append]

/-- Plotting a list of in-bounds coordinates succeeds and acts on the
framebuffer as the corresponding sequence of `set` writes. -/
theorem foldPlot_ok (w : Nat) (p : Pixel) (cs : List (Nat × Nat)) :
    ∀ (st : ScreenContextManager),
      st.width = w → st.color = p →
      (∀ c ∈ cs, c.2 * w + c.1 < st.framebuffer.length ∧ c.2 * w + c.1 < U32) →
      ∃ st', cs.foldl (fun acc c => acc.bind (fun t => plot_pixel c.1 c.2 t))
          (some st) = some st' ∧
        st'.framebuffer =
          cs.foldl (fun fb c => fb.set (c.2 * w + c.1) p) st.framebuffer ∧
        st'.width = w ∧ st'.color = p := by
  induction cs with
  | nil =>
    intro st hw hc _
    exact ⟨st, rfl, rfl, hw, hc⟩
  | cons c cs ih =>
    intro st hw hc hb
    obtain ⟨hlt, hu⟩ := hb c (List.mem_cons_self c cs)
    have h1 : plot_pixel c.1 c.2 st =
        some { st with framebuffer := st.framebuffer.set (c.2 * w + c.1) p } := by
      have h := plot_pixel_eq_some (s := st) (x := c.1) (y := c.2)
        (by rw [hw]; exact hu) (by rw [hw]; exact hlt)
      rw [h, hw, hc]
    have hbnds : ∀ c' ∈ cs,
        c'.2 * w + c'.1 <
          ({ st with framebuffer := st.framebuffer.set (c.2 * w + c.1) p} :
            ScreenContextManager).framebuffer.length ∧
        c'.2 * w + c'.1 < U32 := by
      intro c' hmem
      have := hb c' (List.mem_cons_of_mem _ hmem)
      simpa [List.length_set] using this
    obtain ⟨st', hfold, hfb, hw', hc'⟩ :=
      ih { st with framebuffer := st.framebuffer.set (c.2 * w + c.1) p }
        hw hc hbnds
    refine ⟨st', ?_, ?_, hw', hc'⟩
    · simpa [h1] using hfold
    · rw [hfb]; rfl

/-- C3: `clear(s)` with s ∈ [0,1] fills the whole framebuffer with the
grey (round(s·255), round(s·255), round(s·255)); the resulting
framebuffer equals the one obtained by plotting every pixel with that
grey; and `clear` is idempotent. -/
theorem claim_C3_clear_uniform_grey
    (s : ScreenContextManager) (sh : ℚ)
    (h0 : 0 ≤ sh) (h1 : sh ≤ 1)
    (hlen : s.framebuffer.length = s.width * s.height)
    (hfit : s.width * s.height ≤ U32) :
    (∀ j, j < (clear sh s).framebuffer.length →
       (clear sh s).framebuffer[j]? =
         some ⟨(roundHalfAway (sh * 255)).toNat, (roundHalfAway (sh * 255)).toNat,
               (roundHalfAway (sh * 255)).toNat⟩) ∧
    (∃ s', plotAllGrey sh s = some s' ∧
       s'.framebuffer = (clear sh s).framebuffer) ∧
    clear sh (clear sh s) = clear sh s := by
  have hsc : scale255 sh = (roundHalfAway (sh * 255)).toNat :=
    scale255_eq_round h0 h1
  refine ⟨?_, ?_, ?_⟩
  · intro j hj
    simp only [clear] at hj ⊢
    rw [List.getElem?_replicate, if_pos (by simpa using hj), hsc]
  · have hw : (set_color sh sh sh s).width = s.width := rfl
    have hfb : (set_color sh sh sh s).framebuffer = s.framebuffer := rfl
    have hc : (set_color sh sh sh s).color =
        ⟨scale255 sh, scale255 sh, scale255 sh⟩ := rfl
    have hbnds : ∀ c ∈ allCoords s.width s.height,
        c.2 * s.width + c.1 < (set_color sh sh sh s).framebuffer.length ∧
        c.2 * s.width + c.1 < U32 := by
      intro c hmem
      obtain ⟨hcx, hcy⟩ := mem_allCoords.mp hmem
      have hi : c.2 * s.width + c.1 < s.width * s.height := index_lt hcx hcy
      exact ⟨by rw [hfb, hlen]; exact hi, lt_of_lt_of_le hi hfit⟩
    obtain ⟨st', hfold, hfb', _, _⟩ :=
      foldPlot_ok s.width ⟨scale255 sh, scale255 sh, scale255 sh⟩
        (allCoords s.width s.height) (set_color sh sh sh s) hw hc hbnds
    refine ⟨st', hfold, ?_⟩
    rw [hfb', hfb]
    have hmap := allCoords_indices s.width s.height
    calc (allCoords s.width s.height).foldl
          (fun fb c => fb.set (c.2 * s.width + c.1)
            ⟨scale255 sh, scale255 sh, scale255 sh⟩) s.framebuffer
        = ((allCoords s.width s.height).map (fun c => c.2 * s.width + c.1)).foldl
            (fun fb i => fb.set i ⟨scale255 sh, scale255 sh, scale255 sh⟩)
            s.framebuffer := by
          rw [List.foldl_map]
      _ = (List.range (s.height * s.width)).foldl
            (fun fb i => fb.set i ⟨scale255 sh, scale255 sh, scale255 sh⟩)
            s.framebuffer := by rw [hmap]
      _ = (clear sh s).framebuffer := by
          rw [foldl_set_range _ _ _ (by rw [hlen, Nat.mul_comm])]
          rw [List.drop_eq_nil_of_le (by rw [hlen, Nat.mul_comm])]
          simp [clear, hlen, Nat.mul_comm]
  · simp [clear]

/-- Witness for C3 at shadow 1/2 on a 4×4 surface. -/
theorem claim_C3_witness :
    (∀ j, j < (clear (1/2) (freshSCM 4 4)).framebuffer.length →
       (clear (1/2) (freshSCM 4 4)).framebuffer[j]? = some ⟨128, 128, 128⟩) ∧
    clear (1/2) (clear (1/2) (freshSCM 4 4)) = clear (1/2) (freshSCM 4 4) := by
  have h := claim_C3_clear_uniform_grey (freshSCM 4 4) (1/2)
    (by norm_num) (by norm_num) (by decide) (by decide)
  have h128 : (roundHalfAway ((1/2 : ℚ) * 255)).toNat = 128 := by
    norm_num [roundHalfAway]
    rfl
  refine ⟨?_, h.2.2⟩
  intro j hj
  rw [h.1 j hj, h128]


/-- Witness for C1: r=1, g=0, b=0 at (x,y)=(2,1) on a 4×4 surface. -/
theorem claim_C1_witness :
    ∃ s', plot_pixel 2 1 (set_color 1 0 0 (freshSCM 4 4)) = some s' ∧
      getPixel s' 2 1 = some ⟨(roundHalfAway ((1 : ℚ) * 255)).toNat,
        (roundHalfAway ((0 : ℚ) * 255)).toNat,
        (roundHalfAway ((0 : ℚ) * 255)).toNat⟩ :=
  claim_C1_set_color_plot_readback (freshSCM 4 4) 1 0 0 2 1
    (by norm_num) (by norm_num) (by norm_num) (by norm_num) (by norm_num)
    (by norm_num) (by decide) (by decide) (by decide) (by decide)

/-- C4: two successive `clear_with_rgb` calls leave the framebuffer
entirely in the second color — every pixel reads the second scaled
color, and the double fill equals a single fill with the second color
(last-write-wins, whole-buffer overwrite). -/
theorem claim_C4_clear_with_rgb_last_write_wins
    (s : ScreenContextManager) (r g b r2 g2 b2 : ℚ)
    (hr0 : 0 ≤ r2) (hr1 : r2 ≤ 1) (hg0 : 0 ≤ g2) (hg1 : g2 ≤ 1)
    (hb0 : 0 ≤ b2) (hb1 : b2 ≤ 1) :
    (∀ j, j < (clear_with_rgb r2 g2 b2 (clear_with_rgb r g b s)).framebuffer.length →
       (clear_with_rgb r2 g2 b2 (clear_with_rgb r g b s)).framebuffer[j]? =
         some ⟨(roundHalfAway (r2 * 255)).toNat, (roundHalfAway (g2 * 255)).toNat,
               (roundHalfAway (b2 * 255)).toNat⟩) ∧
    clear_with_rgb r2 g2 b2 (clear_with_rgb r g b s) =
      clear_with_rgb r2 g2 b2 s := by
  constructor
  · intro j hj
    simp only [clear_with_rgb, List.length_replicate] at hj ⊢
    rw [List.getElem?_replicate, if_pos hj, scale255_eq_round hr0 hr1,
      scale255_eq_round hg0 hg1, scale255_eq_round hb0 hb1]
  · simp [clear_with_rgb]

/-- Witness for C4: red fill then green fill on a 4×4 surface. -/
theorem claim_C4_witness :
    (∀ j, j < (clear_with_rgb 0 1 0 (clear_with_rgb 1 0 0 (freshSCM 4 4))).framebuffer.length →
       (clear_with_rgb 0 1 0 (clear_with_rgb 1 0 0 (freshSCM 4 4))).framebuffer[j]? =
         some ⟨(roundHalfAway ((0 : ℚ) * 255)).toNat,
               (roundHalfAway ((1 : ℚ) * 255)).toNat,
               (roundHalfAway ((0 : ℚ) * 255)).toNat⟩) ∧
    clear_with_rgb 0 1 0 (clear_with_rgb 1 0 0 (freshSCM 4 4)) =
      clear_with_rgb 0 1 0 (freshSCM 4 4) :=
  claim_C4_clear_with_rgb_last_write_wins (freshSCM 4 4) 1 0 0 0 1 0
    (by norm_num) (by norm_num) (by norm_num) (by norm_num) (by norm_num)
    (by norm_num)

/-- The state component returned by `present` is always the receiver. -/
theorem present_keeps_state (o : PresentOracle) (s : ScreenContextManager) :
    (present o s).2.1 = s := by
  obtain ⟨ce, ue, ke⟩ := o
  cases ce <;> cases ue <;> cases ke <;> rfl

/-- C5: `present` never mutates the CPU-side state — framebuffer, draw
color, width and height are exactly as before the call, on success and
on every failure — and each failing sub-step's error carries the
underlying message. -/
theorem claim_C5_present_preserves_state (o : PresentOracle)
    (s : ScreenContextManager) :
    (present o s).2.1.framebuffer = s.framebuffer ∧
    (present o s).2.1.color = s.color ∧
    (present o s).2.1.width = s.width ∧
    (present o s).2.1.height = s.height ∧
    (∀ m, o.createErr = some m →
      (present o s).1 = .error (.TextureValue m)) ∧
    (∀ m, o.createErr = none → o.updateErr = some m →
      (present o s).1 = .error (.TextureUpdate m)) ∧
    (∀ m, o.createErr = none → o.updateErr = none → o.copyErr = some m →
      (present o s).1 = .error (.CanvasCopy m)) := by
  refine ⟨by rw [present_keeps_state], by rw [present_keeps_state],
    by rw [present_keeps_state], by rw [present_keeps_state], ?_, ?_, ?_⟩ <;>
  · obtain ⟨ce, ue, ke⟩ := o
    cases ce <;> cases ue <;> cases ke <;> simp [present]

/-- Witness for C5 at each failing sub-step on a concrete manager. -/
theorem claim_C5_witness :
    (present ⟨some ("tex"), none, none⟩ (freshSCM 4 4)).2.1.framebuffer =
      (freshSCM 4 4).framebuffer ∧
    (present ⟨some ("tex"), none, none⟩ (freshSCM 4 4)).1 =
      .error (.TextureValue ("tex")) ∧
    (present ⟨none, some ("upd"), none⟩ (freshSCM 4 4)).1 =
      .error (.TextureUpdate ("upd")) ∧
    (present ⟨none, none, some ("copy")⟩ (freshSCM 4 4)).1 =
      .error (.CanvasCopy ("copy")) :=
  ⟨(claim_C5_present_preserves_state ⟨some ("tex"), none, none⟩ (freshSCM 4 4)).1,
   (claim_C5_present_preserves_state ⟨some ("tex"), none, none⟩
     (freshSCM 4 4)).2.2.2.2.1 ("tex") rfl,
   (claim_C5_present_preserves_state ⟨none, some ("upd"), none⟩
     (freshSCM 4 4)).2.2.2.2.2.1 ("upd") rfl rfl,
   (claim_C5_present_preserves_state ⟨none, none, some ("copy")⟩
     (freshSCM 4 4)).2.2.2.2.2.2 ("copy") rfl rfl rfl⟩

/-- C6: `present_async` and `present` have identical semantics — on
every state and oracle they return the same result, state and GPU call
trace; on success that trace is create-texture(width, height), upload of
the row-major framebuffer bytes at pitch `width_times_color`, copy, then
present; and a constructed manager's `width_times_color` is
width · COLOR_DEPTH (the width × 3 byte stride). -/
theorem claim_C6_present_async_equiv (o : PresentOracle)
    (s : ScreenContextManager) :
    present_async o s = present o s ∧
    ((present o s).1 = .ok () →
      (present o s).2.2 =
        [.createTexture s.width s.height,
         .updateTexture (fbBytes s.framebuffer) s.width_times_color,
         .canvasCopy, .canvasPresent]) ∧
    (∀ (io : InitOracle) (t : String) (w h : Nat) (s0 : ScreenContextManager),
      new io t w h = .ok s0 → s0.width_times_color = w * COLOR_DEPTH % U32) := by
  refine ⟨rfl, ?_, ?_⟩
  · obtain ⟨ce, ue, ke⟩ := o
    cases ce <;> cases ue <;> cases ke <;> simp [present]
  · intro io t w h s0 hok
    obtain ⟨ie, ve, we, che, pe, evs⟩ := io
    cases ie <;> cases ve <;> cases we <;> cases che <;> cases pe <;>
      simp [new] at hok
    rw [← hok]

/-- Witness for C6: a successful present on a successfully constructed
4×4 manager. -/
theorem claim_C6_witness :
    (present ⟨none, none, none⟩ (freshSCM 4 4)).2.2 =
      [.createTexture (freshSCM 4 4).width (freshSCM 4 4).height,
       .updateTexture (fbBytes (freshSCM 4 4).framebuffer)
         (freshSCM 4 4).width_times_color,
       .canvasCopy, .canvasPresent] ∧
    (freshSCM 4 4).width_times_color = 4 * COLOR_DEPTH % U32 :=
  ⟨(claim_C6_present_async_equiv ⟨none, none, none⟩ (freshSCM 4 4)).2.1 rfl,
   (claim_C6_present_async_equiv ⟨none, none, none⟩ (freshSCM 4 4)).2.2
     ⟨none, none, none, none, none, []⟩ ("t") 4 4 (freshSCM 4 4) rfl⟩


/-- C7 counterexample: subsystem-init failure and event-source
(event-pump) failure yield the very same `InitError` value, so the
error case does not identify which of the four sub-steps failed. -/
theorem claim_C7_counterexample :
    new ⟨some ("boom"), none, none, none, none, []⟩ ("t") 4 4 =
      new ⟨none, none, none, none, some ("boom"), []⟩ ("t") 4 4 ∧
    new ⟨some ("boom"), none, none, none, none, []⟩ ("t") 4 4 =
      .error (.Sdl2InitError ("boom")) :=
  ⟨rfl, rfl⟩

/-- C7 (amended): window-build and renderer-build failures map to the
dedicated variants `WindowBuildError` and `CanvasBuildError`, while
subsystem-init (init/video) and event-source-acquisition failures all
map to the single variant `Sdl2InitError`; every error carries the
underlying message, and on failure no manager is returned (the result
is an error, never a partial object). -/
theorem claim_C7_new_error_cases (o : InitOracle) (t : String) (w h : Nat) :
    (∀ m, o.initErr = some m → new o t w h = .error (.Sdl2InitError m)) ∧
    (∀ m, o.initErr = none → o.videoErr = some m →
      new o t w h = .error (.Sdl2InitError m)) ∧
    (∀ m, o.initErr = none → o.videoErr = none → o.windowErr = some m →
      new o t w h = .error (.WindowBuildError m)) ∧
    (∀ m, o.initErr = none → o.videoErr = none → o.windowErr = none →
      o.canvasErr = some m → new o t w h = .error (.CanvasBuildError m)) ∧
    (∀ m, o.initErr = none → o.videoErr = none → o.windowErr = none →
      o.canvasErr = none → o.pumpErr = some m →
      new o t w h = .error (.Sdl2InitError m)) ∧
    (o.initErr = none → o.videoErr = none → o.windowErr = none →
      o.canvasErr = none → o.pumpErr = none →
      new o t w h = .ok
        { framebuffer := List.replicate (w * h % U32) ⟨0, 0, 0⟩
          color := ⟨0, 0, 0⟩
          height := h
          width := w
          width_times_color := w * COLOR_DEPTH % U32
          eventQueue := o.initialEvents }) := by
  obtain ⟨ie, ve, we, ce, pe, evs⟩ := o
  cases ie <;> cases ve <;> cases we <;> cases ce <;> cases pe <;> simp [new]

/-- Witness for C7 exercising every sub-step outcome. -/
theorem claim_C7_witness :
    new ⟨some ("a"), none, none, none, none, []⟩ ("t") 2 2 =
      .error (.Sdl2InitError ("a")) ∧
    new ⟨none, some ("b"), none, none, none, []⟩ ("t") 2 2 =
      .error (.Sdl2InitError ("b")) ∧
    new ⟨none, none, some ("c"), none, none, []⟩ ("t") 2 2 =
      .error (.WindowBuildError ("c")) ∧
    new ⟨none, none, none, some ("d"), none, []⟩ ("t") 2 2 =
      .error (.CanvasBuildError ("d")) ∧
    new ⟨none, none, none, none, some ("e"), []⟩ ("t") 2 2 =
      .error (.Sdl2InitError ("e")) ∧
    new ⟨none, none, none, none, none, []⟩ ("t") 2 2 = .ok
      { framebuffer := List.replicate (2 * 2 % U32) ⟨0, 0, 0⟩
        color := ⟨0, 0, 0⟩
        height := 2
        width := 2
        width_times_color := 2 * COLOR_DEPTH % U32
        eventQueue := [] } :=
  ⟨(claim_C7_new_error_cases ⟨some ("a"), none, none, none, none, []⟩ ("t") 2 2).1
     ("a") rfl,
   (claim_C7_new_error_cases ⟨none, some ("b"), none, none, none, []⟩ ("t") 2 2).2.1
     ("b") rfl rfl,
   (claim_C7_new_error_cases ⟨none, none, some ("c"), none, none, []⟩ ("t") 2 2).2.2.1
     ("c") rfl rfl rfl,
   (claim_C7_new_error_cases ⟨none, none, none, some ("d"), none, []⟩ ("t") 2 2).2.2.2.1
     ("d") rfl rfl rfl rfl,
   (claim_C7_new_error_cases ⟨none, none, none, none, some ("e"), []⟩ ("t") 2 2).2.2.2.2.1
     ("e") rfl rfl rfl rfl rfl,
   (claim_C7_new_error_cases ⟨none, none, none, none, none, []⟩ ("t") 2 2).2.2.2.2.2
     rfl rfl rfl rfl rfl⟩

/-- C8 counterexample: at r = 2 the rounded value is 510; the stored
channel is the saturated 255, not the 8-bit wraparound 510 mod 256 = 254
the claim asserts. -/
theorem claim_C8_counterexample :
    (set_color 2 0 0 (freshSCM 4 4)).color.r = 255 ∧
    roundHalfAway ((2 : ℚ) * 255) = 510 ∧
    ((510 : ℤ) % 256).toNat = 254 ∧
    (set_color 2 0 0 (freshSCM 4 4)).color.r ≠ ((510 : ℤ) % 256).toNat := by
  have h1 : scale255 2 = 255 := by
    norm_num [scale255, satU8, roundHalfAway]
    rfl
  have h2 : roundHalfAway ((2 : ℚ) * 255) = 510 := by
    norm_num [roundHalfAway]
  refine ⟨h1, h2, by decide, ?_⟩
  have h3 : (set_color 2 0 0 (freshSCM 4 4)).color.r = scale255 2 := rfl
  rw [h3, h1]
  decide

/-- C8 (amended): for component values outside [0,1] the computation
`(value * 255).round() as u8` saturates — rounded values at or above 255
store 255 and rounded values at or below 0 store 0 (Rust float→int `as`
casts clamp, they do not wrap) — and `clear_with_rgb` fills with pixels
built by exactly the same scaling rule as `set_color`. -/
theorem claim_C8_saturating_scale (s : ScreenContextManager) (v g b : ℚ) :
    (255 ≤ roundHalfAway (v * 255) → (set_color v g b s).color.r = 255) ∧
    (roundHalfAway (v * 255) ≤ 0 → (set_color v g b s).color.r = 0) ∧
    (clear_with_rgb v g b s).framebuffer =
      List.replicate s.framebuffer.length
        ⟨(set_color v g b s).color.r, (set_color v g b s).color.g,
         (set_color v g b s).color.b⟩ := by
  refine ⟨?_, ?_, rfl⟩
  · intro hge
    show satU8 (roundHalfAway (v * 255)) = 255
    unfold satU8
    omega
  · intro hle
    show satU8 (roundHalfAway (v * 255)) = 0
    unfold satU8
    omega

/-- Witness for C8 at v = 2 (saturates high) and v = -1 (saturates low). -/
theorem claim_C8_witness :
    (255 : ℤ) ≤ roundHalfAway ((2 : ℚ) * 255) ∧
    (set_color 2 0 0 (freshSCM 4 4)).color.r = 255 ∧
    roundHalfAway ((-1 : ℚ) * 255) ≤ 0 ∧
    (set_color (-1) 0 0 (freshSCM 4 4)).color.r = 0 := by
  have hhi : (255 : ℤ) ≤ roundHalfAway ((2 : ℚ) * 255) := by
    norm_num [roundHalfAway]
  have hlo : roundHalfAway ((-1 : ℚ) * 255) ≤ 0 := by
    norm_num [roundHalfAway]
  exact ⟨hhi, (claim_C8_saturating_scale (freshSCM 4 4) 2 0 0).1 hhi, hlo,
    (claim_C8_saturating_scale (freshSCM 4 4) (-1) 0 0).2.1 hlo⟩

/-- C9: on successful construction the framebuffer length is
width·height, every operation preserves the length, and
`get_width`/`get_height` keep returning the construction dimensions
through every operation. -/
theorem claim_C9_length_invariant
    (o : InitOracle) (t : String) (w h : Nat) (s0 s : ScreenContextManager)
    (po : PresentOracle) (eo : Option String) (r g b sh : ℚ) (x y : Nat) :
    (new o t w h = .ok s0 → w * h < U32 →
      s0.framebuffer.length = w * h ∧ get_width s0 = w ∧ get_height s0 = h) ∧
    ((set_color r g b s).framebuffer.length = s.framebuffer.length ∧
      get_width (set_color r g b s) = get_width s ∧
      get_height (set_color r g b s) = get_height s) ∧
    (∀ s', plot_pixel x y s = some s' →
      s'.framebuffer.length = s.framebuffer.length ∧
      get_width s' = get_width s ∧ get_height s' = get_height s) ∧
    ((clear sh s).framebuffer.length = s.framebuffer.length ∧
      get_width (clear sh s) = get_width s ∧
      get_height (clear sh s) = get_height s) ∧
    ((clear_with_rgb r g b s).framebuffer.length = s.framebuffer.length ∧
      get_width (clear_with_rgb r g b s) = get_width s ∧
      get_height (clear_with_rgb r g b s) = get_height s) ∧
    (present po s).2.1 = s ∧
    (present_async po s).2.1 = s ∧
    ((get_events s).2.framebuffer.length = s.framebuffer.length ∧
      get_width (get_events s).2 = get_width s ∧
      get_height (get_events s).2 = get_height s) ∧
    (save_img eo s).2 = s := by
  refine ⟨?_, ?_, ?_, ?_, ?_, present_keeps_state po s, present_keeps_state po s,
    ?_, ?_⟩
  · intro hok hfit
    obtain ⟨ie, ve, we, ce, pe, evs⟩ := o
    cases ie <;> cases ve <;> cases we <;> cases ce <;> cases pe <;>
      simp [new] at hok
    rw [← hok]
    simp [get_width, get_height, List.length_replicate, Nat.mod_eq_of_lt hfit]
  · simp [set_color, get_width, get_height]
  · intro s' hs'
    simp only [plot_pixel] at hs'
    split at hs'
    · cases hs'
      simp [get_width, get_height, List.length_set]
    · cases hs'
  · simp [clear, get_width, get_height, List.length_replicate]
  · simp [clear_with_rgb, get_width, get_height, List.length_replicate]
  · simp [get_events, get_width, get_height]
  · cases eo <;> rfl

/-- Witness for C9: a successfully constructed 4×4 manager and a
successful plot on it. -/
theorem claim_C9_witness :
    (freshSCM 4 4).framebuffer.length = 4 * 4 ∧
    get_width (freshSCM 4 4) = 4 ∧ get_height (freshSCM 4 4) = 4 ∧
    ({ freshSCM 4 4 with
        framebuffer := (freshSCM 4 4).framebuffer.set 9 ⟨0, 0, 0⟩ } :
      ScreenContextManager).framebuffer.length =
        (freshSCM 4 4).framebuffer.length := by
  have hcl := claim_C9_length_invariant ⟨none, none, none, none, none, []⟩ ("t")
    4 4 (freshSCM 4 4) (freshSCM 4 4) ⟨none, none, none⟩ none 0 0 0 0 1 2
  obtain ⟨ha, hb, hc⟩ := hcl.1 rfl (by decide)
  have hplot := hcl.2.2.1
    { freshSCM 4 4 with framebuffer := (freshSCM 4 4).framebuffer.set 9 ⟨0, 0, 0⟩ }
    (by decide)
  exact ⟨ha, hb, hc, hplot.1⟩

/-- C10: with the framebuffer at its invariant length width·height and
no u32 overflow in the index, `plot_pixel(x,y)` panics exactly when the
flat index `i = y·width + x` reaches width·height; whenever `i` is in
bounds it succeeds — even when x ≥ width or y ≥ height — writing the
draw color at flat index i (row i / width, column i % width) while every
other entry and the buffer length stay untouched. -/
theorem claim_C10_plot_pixel_flat_index
    (s : ScreenContextManager) (x y : Nat)
    (hlen : s.framebuffer.length = s.width * s.height)
    (hno : y * s.width + x < U32) :
    (plot_pixel x y s = none ↔ s.width * s.height ≤ y * s.width + x) ∧
    (y * s.width + x < s.width * s.height →
      ∃ s', plot_pixel x y s = some s' ∧
        s'.framebuffer.length = s.framebuffer.length ∧
        s'.framebuffer[y * s.width + x]? = some s.color ∧
        y * s.width + x =
          ((y * s.width + x) / s.width) * s.width +
            (y * s.width + x) % s.width ∧
        (∀ j, j ≠ y * s.width + x →
          s'.framebuffer[j]? = s.framebuffer[j]?)) := by
  constructor
  · constructor
    · intro hnone
      by_contra hlt
      push_neg at hlt
      rw [plot_pixel_eq_some hno (by rw [hlen]; exact hlt)] at hnone
      cases hnone
    · intro hge
      exact plot_pixel_eq_none hno (by rw [hlen]; exact hge)
  · intro hlt
    refine ⟨_, plot_pixel_eq_some hno (by rw [hlen]; exact hlt), ?_, ?_, ?_, ?_⟩
    · simp [List.length_set]
    · exact List.getElem?_set_eq_of_lt _ (by rw [hlen]; exact hlt)
    · rw [Nat.mul_comm ((y * s.width + x) / s.width) s.width]
      exact (Nat.div_add_mod (y * s.width + x) s.width).symm
    · intro j hj
      exact List.getElem?_set_ne (Ne.symm hj)

/-- Witness for C10 on a 4×4 surface at (x,y) = (5,0): x ≥ width, yet
the flat index 5 is in bounds, so the plot silently succeeds at row 1,
column 1. -/
theorem claim_C10_witness :
    (plot_pixel 5 0 (freshSCM 4 4) = none ↔
      (freshSCM 4 4).width * (freshSCM 4 4).height ≤
        0 * (freshSCM 4 4).width + 5) ∧
    (∃ s', plot_pixel 5 0 (freshSCM 4 4) = some s' ∧
      s'.framebuffer.length = (freshSCM 4 4).framebuffer.length ∧
      s'.framebuffer[0 * (freshSCM 4 4).width + 5]? =
        some (freshSCM 4 4).color ∧
      0 * (freshSCM 4 4).width + 5 =
        ((0 * (freshSCM 4 4).width + 5) / (freshSCM 4 4).width) *
            (freshSCM 4 4).width +
          (0 * (freshSCM 4 4).width + 5) % (freshSCM 4 4).width ∧
      (∀ j, j ≠ 0 * (freshSCM 4 4).width + 5 →
        s'.framebuffer[j]? = (freshSCM 4 4).framebuffer[j]?)) := by
  have h := claim_C10_plot_pixel_flat_index (freshSCM 4 4) 5 0
    (by decide) (by decide)
  exact ⟨h.1, h.2 (by decide)⟩

end SdlWrapper
